import Mathlib

/-!
Verification development for the project-chimera repository.

The `Frontend` namespace embeds the Redux task slice
(src/frontend/src/store/tasksSlice.ts) and the task page action gating
(src/frontend/src/pages/Tasks/Tasks.tsx).  The `Chat` namespace embeds the
chat slice reducer.  The `WS` namespace embeds the WebSocketService handler
registry (emit / on / off).  The `Core` namespace models, from the spec,
the backend orchestration core (TaskStore, Scheduler assignment,
cancellation cascade) whose implementation is not part of the provided
sources.
-/

namespace Frontend

/-- The status union of the frontend Task interface
(tasksSlice.ts line 9): exactly five members. -/
inductive TaskStatus where
  | pending
  | running
  | completed
  | failed
  | cancelled
deriving DecidableEq

/-- Decoding of the TypeScript status union: which strings are
representable values of the Task status field. -/
def TaskStatus.ofString : String → Option TaskStatus
  | "pending" => some .pending
  | "running" => some .running
  | "completed" => some .completed
  | "failed" => some .failed
  | "cancelled" => some .cancelled
  | _ => none

/-- Priority union of the frontend Task interface. -/
inductive Priority where
  | low
  | medium
  | high
deriving DecidableEq

/-- The frontend Task record (tasksSlice.ts lines 3-16). -/
structure Task where
  id : String
  title : String
  description : String
  ttype : String
  priority : Priority
  status : TaskStatus
  agent_id : Option String
  created_at : String
  updated_at : String
  user_id : String
  result : Option String
  dependencies : List String
deriving DecidableEq

/-- The updateTask.fulfilled reducer (tasksSlice.ts lines 205-210):
find the task with the payload id and replace it with the payload. -/
def updateTaskFulfilled (tasks : List Task) (payload : Task) : List Task :=
  match tasks.findIdx? (fun t => t.id == payload.id) with
  | some i => tasks.set i payload
  | none => tasks

/-- The Edit action of renderTaskActions (Tasks.tsx line 169):
disabled exactly when the status is running. -/
def editDisabled (t : Task) : Bool :=
  t.status == .running

/-- The Delete action of renderTaskActions (Tasks.tsx line 179):
disabled exactly when the status is running. -/
def deleteDisabled (t : Task) : Bool :=
  t.status == .running

/-- The Execute action of renderTaskActions (Tasks.tsx line 154):
shown exactly when the status is pending. -/
def executeShown (t : Task) : Bool :=
  t.status == .pending

/-- A concrete completed task used below. -/
def doneTask : Task :=
  { id := "t1", title := "report", description := "d", ttype := "analysis",
    priority := .medium, status := .completed, agent_id := none,
    created_at := "2024-01-01", updated_at := "2024-01-02",
    user_id := "u1", result := some "ok", dependencies := [] }

/-- The same task with its title edited. -/
def doneTaskEdited : Task :=
  { doneTask with title := "report v2" }

end Frontend

/-- C1: the claim asserts seven statuses with decomposed and ready
representable in the Task type; in the source the union has five members
and neither decomposed nor ready decodes to a Task status. -/
theorem c1_counterexample :
    Frontend.TaskStatus.ofString "decomposed" = none ∧
    Frontend.TaskStatus.ofString "ready" = none := by
  exact ⟨rfl, rfl⟩

/-- C1 (amended): every status of the frontend Task type is one of the
five values pending, running, completed, failed, cancelled; decomposed
and ready are not representable. -/
theorem c1_amended_statuses :
    (∀ s : Frontend.TaskStatus,
      s = .pending ∨ s = .running ∨ s = .completed ∨
      s = .failed ∨ s = .cancelled) ∧
    Frontend.TaskStatus.ofString "decomposed" = none ∧
    Frontend.TaskStatus.ofString "ready" = none := by
  refine ⟨fun s => ?_, rfl, rfl⟩
  cases s <;> simp

/-- C4: the claim asserts terminal tasks are immutable; in the source the
edit action is enabled for a completed task and the update reducer
replaces it, modifying its title. -/
theorem c4_counterexample :
    Frontend.editDisabled Frontend.doneTask = false ∧
    Frontend.updateTaskFulfilled [Frontend.doneTask] Frontend.doneTaskEdited
      = [Frontend.doneTaskEdited] ∧
    Frontend.doneTaskEdited ≠ Frontend.doneTask := by
  refine ⟨rfl, rfl, ?_⟩
  decide

/-- C4 (amended): the UI disables edit and delete exactly for running
tasks; a task in a terminal status stays editable, and the update reducer
replaces a stored task with a matching-id payload regardless of the
stored task's status. -/
theorem c4_amended_gating :
    ∀ t : Frontend.Task,
      ((t.status = .completed ∨ t.status = .failed ∨ t.status = .cancelled) →
        Frontend.editDisabled t = false ∧ Frontend.deleteDisabled t = false) ∧
      (t.status = .running →
        Frontend.editDisabled t = true ∧ Frontend.deleteDisabled t = true) ∧
      (∀ p : Frontend.Task, p.id = t.id →
        Frontend.updateTaskFulfilled [t] p = [p]) := by
  intro t
  refine ⟨?_, ?_, ?_⟩
  · intro h
    rcases h with h | h | h <;>
      simp [Frontend.editDisabled, Frontend.deleteDisabled, h]
  · intro h
    simp [Frontend.editDisabled, Frontend.deleteDisabled, h]
  · intro p hp
    simp [Frontend.updateTaskFulfilled, List.findIdx?, hp]

/-- C4 witness: the amended theorem applied to the concrete completed
task. -/
theorem c4_witness :
    (Frontend.doneTask.status = .completed ∨
      Frontend.doneTask.status = .failed ∨
      Frontend.doneTask.status = .cancelled) ∧
    Frontend.editDisabled Frontend.doneTask = false ∧
    Frontend.deleteDisabled Frontend.doneTask = false ∧
    Frontend.doneTaskEdited.id = Frontend.doneTask.id ∧
    Frontend.updateTaskFulfilled [Frontend.doneTask] Frontend.doneTaskEdited
      = [Frontend.doneTaskEdited] := by
  have h := c4_amended_gating Frontend.doneTask
  refine ⟨Or.inl rfl, (h.1 (Or.inl rfl)).1, (h.1 (Or.inl rfl)).2, rfl, ?_⟩
  exact h.2.2 Frontend.doneTaskEdited rfl

namespace Chat

/-- Message role union of the chat slice. -/
inductive Role where
  | user
  | assistant
deriving DecidableEq

/-- The ChatMessage record of the chat slice. -/
structure ChatMessage where
  id : String
  content : String
  role : Role
  timestamp : String
  session_id : String
deriving DecidableEq

/-- The ChatSession record of the chat slice. -/
structure ChatSession where
  id : String
  title : String
  created_at : String
  updated_at : String
  user_id : String
deriving DecidableEq

/-- The ChatState record of the chat slice. -/
structure ChatState where
  sessions : List ChatSession
  currentSession : Option ChatSession
  messages : List ChatMessage
  loading : Bool
  error : Option String
  isStreaming : Bool
deriving DecidableEq

/-- The deleteChatSession.fulfilled reducer: filter out sessions with the
deleted id; if the current session has that id, reset it to null and
clear the message list. -/
def deleteChatSessionFulfilled (st : ChatState) (sessionId : String) : ChatState :=
  let st1 := { st with sessions := st.sessions.filter (fun s => !(s.id == sessionId)) }
  match st.currentSession with
  | some cur =>
      if cur.id == sessionId then
        { st1 with currentSession := none, messages := [] }
      else st1
  | none => st1

/-- A concrete chat session used in the witness. -/
def demoSession : ChatSession :=
  { id := "s1", title := "hello", created_at := "2024-01-01",
    updated_at := "2024-01-01", user_id := "u1" }

/-- A concrete chat message used in the witness. -/
def demoMessage : ChatMessage :=
  { id := "m1", content := "hi", role := .user,
    timestamp := "2024-01-01", session_id := "s1" }

/-- A concrete chat state used in the witness. -/
def demoChatState : ChatState :=
  { sessions := [demoSession], currentSession := some demoSession,
    messages := [demoMessage], loading := false, error := none,
    isStreaming := false }

end Chat

/-- C10: the delete-session reducer removes exactly the sessions whose id
equals the deleted id; if the current session has that id the current
session becomes null and the message list empty, otherwise the current
session and messages are unchanged; the remaining fields are untouched. -/
theorem c10_delete_session (st : Chat.ChatState) (sid : String) :
    (Chat.deleteChatSessionFulfilled st sid).sessions
        = st.sessions.filter (fun s => !(s.id == sid)) ∧
    ((∃ cur, st.currentSession = some cur ∧ cur.id = sid) →
      (Chat.deleteChatSessionFulfilled st sid).currentSession = none ∧
      (Chat.deleteChatSessionFulfilled st sid).messages = []) ∧
    ((∀ cur, st.currentSession = some cur → cur.id ≠ sid) →
      (Chat.deleteChatSessionFulfilled st sid).currentSession = st.currentSession ∧
      (Chat.deleteChatSessionFulfilled st sid).messages = st.messages) ∧
    (Chat.deleteChatSessionFulfilled st sid).loading = st.loading ∧
    (Chat.deleteChatSessionFulfilled st sid).error = st.error ∧
    (Chat.deleteChatSessionFulfilled st sid).isStreaming = st.isStreaming := by
  rcases hcur : st.currentSession with _ | cur
  · refine ⟨?_, ?_, ?_, ?_, ?_, ?_⟩ <;>
      simp [Chat.deleteChatSessionFulfilled, hcur]
  · by_cases hid : cur.id = sid
    · refine ⟨?_, ?_, ?_, ?_, ?_, ?_⟩ <;>
        simp [Chat.deleteChatSessionFulfilled, hcur, hid]
    · refine ⟨?_, ?_, ?_, ?_, ?_, ?_⟩ <;>
        simp [Chat.deleteChatSessionFulfilled, hcur, hid]

/-- C10 witness: deleting the current session on a concrete state. -/
theorem c10_witness :
    (∃ cur, Chat.demoChatState.currentSession = some cur ∧ cur.id = "s1") ∧
    (Chat.deleteChatSessionFulfilled Chat.demoChatState "s1").sessions = [] ∧
    (Chat.deleteChatSessionFulfilled Chat.demoChatState "s1").currentSession = none ∧
    (Chat.deleteChatSessionFulfilled Chat.demoChatState "s1").messages = [] := by
  have h := c10_delete_session Chat.demoChatState "s1"
  have hex : ∃ cur, Chat.demoChatState.currentSession = some cur ∧ cur.id = "s1" :=
    ⟨Chat.demoSession, rfl, rfl⟩
  exact ⟨hex, by decide, (h.2.1 hex).1, (h.2.1 hex).2⟩

namespace WS

/-- A registered event handler, identified by an id; the throws flag
models whether invoking it raises an exception. -/
structure Handler where
  hid : Nat
  throws : Bool
deriving DecidableEq

/-- The WebSocketService eventHandlers map: event name to handler list. -/
abbrev Registry := List (String × List Handler)

/-- Map lookup with default []: this.eventHandlers.get(event) || []. -/
def getHandlers : Registry → String → List Handler
  | [], _ => []
  | p :: r, e => if p.1 == e then p.2 else getHandlers r e

/-- Map set: replace the binding for the event, or add one. -/
def setHandlers : Registry → String → List Handler → Registry
  | [], e, hs => [(e, hs)]
  | p :: r, e, hs => if p.1 == e then (e, hs) :: r else p :: setHandlers r e hs

/-- WebSocketService.on (part_002 lines 448-452): push the handler onto
the event's list. -/
def onEvent (r : Registry) (e : String) (h : Handler) : Registry :=
  setHandlers r e (getHandlers r e ++ [h])

/-- WebSocketService.off with a handler argument (part_002 lines
454-466): if the handler occurs in the event's list, splice out its
first occurrence; otherwise leave the registry unchanged. -/
def off (r : Registry) (e : String) (h : Handler) : Registry :=
  let hs := getHandlers r e
  if hs.contains h then setHandlers r e (hs.erase h) else r

/-- The order in which emit invokes handlers for an event: the event's
registered list, traversed front to back (handlers.forEach). -/
def emitOrder (r : Registry) (e : String) : List Handler :=
  getHandlers r e

/-- One handler invocation: a throwing handler raises an error, a normal
one returns its id. -/
def invoke (h : Handler) : Except String Nat :=
  if h.throws then Except.error "handler threw" else Except.ok h.hid

/-- WebSocketService.emit over a handler list (part_002 lines 437-446):
each handler is invoked in order inside a try/catch; a thrown error is
logged (console.error) and the loop continues.  Returns the invoked
handler ids and the logged errors. -/
def runEmit : List Handler → List Nat × List String
  | [] => ([], [])
  | h :: rest =>
      let r := runEmit rest
      match invoke h with
      | Except.ok _ => (h.hid :: r.1, r.2)
      | Except.error msg => (h.hid :: r.1, msg :: r.2)

/-- A handler used in concrete scenarios. -/
def hDup : Handler := { hid := 0, throws := false }

/-- A non-throwing handler used in the C9 witness. -/
def hOk1 : Handler := { hid := 1, throws := false }

/-- A throwing handler used in the C9 witness. -/
def hThrow : Handler := { hid := 2, throws := true }

/-- A non-throwing handler used in the C9 witness. -/
def hOk2 : Handler := { hid := 3, throws := false }

theorem getHandlers_setHandlers (r : Registry) (e : String) (hs : List Handler) :
    getHandlers (setHandlers r e hs) e = hs := by
  induction r with
  | nil => simp [setHandlers, getHandlers]
  | cons p r ih =>
      by_cases hpe : p.1 = e
      · simp [setHandlers, getHandlers, hpe]
      · have hb : (p.1 == e) = false := beq_eq_false_iff_ne.mpr hpe
        simp [setHandlers, getHandlers, hb, ih]

theorem getHandlers_onEvent (r : Registry) (e : String) (h : Handler) :
    getHandlers (onEvent r e h) e = getHandlers r e ++ [h] := by
  simp [onEvent, getHandlers_setHandlers]

theorem runEmit_fst (hs : List Handler) :
    (runEmit hs).1 = hs.map Handler.hid := by
  induction hs with
  | nil => rfl
  | cons h t ih =>
      cases hinv : invoke h <;> simp [runEmit, hinv, ih]

theorem runEmit_snd_mem (post : List Handler) (h : Handler)
    (hth : h.throws = true) :
    ∀ pre : List Handler, "handler threw" ∈ (runEmit (pre ++ h :: post)).2 := by
  intro pre
  induction pre with
  | nil =>
      have hinv : invoke h = Except.error "handler threw" := by
        simp [invoke, hth]
      simp [runEmit, hinv]
  | cons p t ih =>
      cases hinv : invoke p <;> simp [runEmit, hinv]
      · exact Or.inr ih
      · exact ih

/-- off with a handler absent from the event's list leaves the registry
unchanged. -/
theorem off_not_contains (r : Registry) (e : String) (h : Handler)
    (hc : (getHandlers r e).contains h = false) : off r e h = r := by
  have hnc : h ∉ getHandlers r e := by simpa using hc
  simp [off, hnc]

end WS

/-- C7: emit delivers to exactly the subscribers registered at publish
time, in registration order: registering a batch of handlers one after
the other makes the emit invocation order the previous order followed by
that batch in order. -/
theorem c7_emit_order (r : WS.Registry) (e : String) (hs : List WS.Handler) :
    WS.emitOrder (hs.foldl (fun acc h => WS.onEvent acc e h) r) e
      = WS.emitOrder r e ++ hs := by
  induction hs generalizing r with
  | nil => simp [WS.emitOrder]
  | cons h t ih =>
      have step := ih (WS.onEvent r e h)
      simp only [List.foldl_cons] at step ⊢
      rw [step]
      simp [WS.emitOrder, WS.getHandlers_onEvent]

/-- C9: a handler that throws does not prevent delivery to the handlers
registered after it: every handler in the list is invoked, in order, and
the thrown error is caught and logged, with emit returning normally. -/
theorem c9_throw_isolation (pre post : List WS.Handler) (h : WS.Handler)
    (hth : h.throws = true) :
    (WS.runEmit (pre ++ h :: post)).1
        = pre.map WS.Handler.hid ++ h.hid :: post.map WS.Handler.hid ∧
    "handler threw" ∈ (WS.runEmit (pre ++ h :: post)).2 := by
  constructor
  · simp [WS.runEmit_fst]
  · exact WS.runEmit_snd_mem post h hth pre

/-- C9 witness: a concrete three-handler emit where the middle handler
throws; all three are invoked and the error is logged. -/
theorem c9_witness :
    WS.hThrow.throws = true ∧
    (WS.runEmit [WS.hOk1, WS.hThrow, WS.hOk2]).1
        = [WS.hOk1].map WS.Handler.hid
            ++ WS.hThrow.hid :: [WS.hOk2].map WS.Handler.hid ∧
    "handler threw" ∈ (WS.runEmit [WS.hOk1, WS.hThrow, WS.hOk2]).2 := by
  have h := c9_throw_isolation [WS.hOk1] [WS.hOk2] WS.hThrow rfl
  exact ⟨rfl, h.1, h.2⟩

/-- C8: the claim asserts that removing the same handler twice equals
removing it once; with the same handler registered twice, the second off
call removes the second occurrence, so the states differ. -/
theorem c8_counterexample :
    WS.off (WS.off (WS.onEvent (WS.onEvent [] "evt" WS.hDup) "evt" WS.hDup) "evt" WS.hDup)
        "evt" WS.hDup
      ≠ WS.off (WS.onEvent (WS.onEvent [] "evt" WS.hDup) "evt" WS.hDup) "evt" WS.hDup := by
  decide

/-- C8 (amended): off is idempotent provided the handler occurs at most
once in the event's handler list; in general each off call removes one
occurrence. -/
theorem c8_amended_idempotent (r : WS.Registry) (e : String) (h : WS.Handler)
    (hcount : (WS.getHandlers r e).count h ≤ 1) :
    WS.off (WS.off r e h) e h = WS.off r e h := by
  by_cases hc : (WS.getHandlers r e).contains h = true
  · have hmem : h ∈ WS.getHandlers r e := by
      simpa using hc
    have hcount1 : (WS.getHandlers r e).count h = 1 :=
      Nat.le_antisymm hcount (List.count_pos_iff.mpr hmem)
    have hoff : WS.off r e h
        = WS.setHandlers r e ((WS.getHandlers r e).erase h) := by
      simp [WS.off, hmem]
    have hget : WS.getHandlers (WS.off r e h) e
        = (WS.getHandlers r e).erase h := by
      rw [hoff, WS.getHandlers_setHandlers]
    have hzero : ((WS.getHandlers r e).erase h).count h = 0 := by
      rw [List.count_erase_self, hcount1]
    have hnot : ((WS.getHandlers (WS.off r e h) e).contains h) = false := by
      rw [hget]
      by_contra hcon
      have hmem2 : h ∈ (WS.getHandlers r e).erase h := by
        have hb : ((WS.getHandlers r e).erase h).contains h = true := by
          revert hcon
          cases ((WS.getHandlers r e).erase h).contains h <;> simp
        simpa using hb
      have := List.count_pos_iff.mpr hmem2
      omega
    exact WS.off_not_contains (WS.off r e h) e h hnot
  · have hcf : (WS.getHandlers r e).contains h = false := by
      revert hc
      cases (WS.getHandlers r e).contains h <;> simp
    have hro : WS.off r e h = r := WS.off_not_contains r e h hcf
    rw [hro, hro]

/-- C8 witness: the amended theorem on a registry where the handler is
registered exactly once. -/
theorem c8_witness :
    (WS.getHandlers (WS.onEvent [] "evt" WS.hDup) "evt").count WS.hDup ≤ 1 ∧
    WS.off (WS.off (WS.onEvent [] "evt" WS.hDup) "evt" WS.hDup) "evt" WS.hDup
      = WS.off (WS.onEvent [] "evt" WS.hDup) "evt" WS.hDup := by
  exact ⟨by decide,
    c8_amended_idempotent (WS.onEvent [] "evt" WS.hDup) "evt" WS.hDup (by decide)⟩

namespace Core

/-- Modelled from the spec: the seven-value task status of the
orchestration core data model (spec section 3), whose backend
implementation (TaskManager/TaskStore) is not in the provided sources. -/
inductive Status where
  | pending
  | decomposed
  | ready
  | running
  | completed
  | failed
  | cancelled
deriving DecidableEq

/-- Modelled from the spec: a task is terminal once completed, failed, or
cancelled. -/
def Status.isTerminal : Status → Bool
  | .completed => true
  | .failed => true
  | .cancelled => true
  | _ => false

/-- Modelled from the spec: priority low/medium/high. -/
inductive CPriority where
  | low
  | medium
  | high
deriving DecidableEq

/-- Modelled from the spec: the core Task record (spec section 3) with
identifier, type, priority, status, optional parent, dependency ids,
nullable assigned agent, and creation order. -/
structure CTask where
  id : String
  ttype : String
  priority : CPriority
  status : Status
  parent : Option String
  deps : List String
  agent : Option String
  createdAt : Nat
deriving DecidableEq

/-- Modelled from the spec: the TaskStore contents. -/
abbrev Store := List CTask

/-- Modelled from the spec: the valid edges of the task state machine
(spec section 4.2): pending→decomposed, pending→ready, decomposed→ready,
ready→running, running→completed, running→failed, and
pending/ready/running→cancelled. -/
def validEdge : Status → Status → Bool
  | .pending, .decomposed => true
  | .pending, .ready => true
  | .decomposed, .ready => true
  | .ready, .running => true
  | .running, .completed => true
  | .running, .failed => true
  | .pending, .cancelled => true
  | .ready, .cancelled => true
  | .running, .cancelled => true
  | _, _ => false

/-- Modelled from the spec: the errors of TaskStore operations used
below. -/
inductive StoreError where
  | invalidTransition
  | unknownTask
  | invalidDependency
deriving DecidableEq

/-- The children of a task: the tasks whose parent field names it. -/
def childrenOf (s : Store) (id : String) : List CTask :=
  s.filter (fun u => u.parent == some id)

/-- Modelled from the spec: all children of the task are terminal (the
parenthetical guard on the decomposed→ready edge in spec section 4.2). -/
def childrenTerminal (s : Store) (id : String) : Bool :=
  (childrenOf s id).all (fun u => u.status.isTerminal)

/-- Replace the status of the task with the given id, leaving every other
field and every other task unchanged. -/
def setStatus (s : Store) (id : String) (new : Status) : Store :=
  s.map (fun u => if u.id == id then { u with status := new } else u)

/-- Modelled from the spec: whether a transition of the found task to the
new status is permitted: the edge must be valid, and the decomposed→ready
edge additionally requires all children terminal. -/
def transitionOk (s : Store) (t : CTask) (new : Status) : Bool :=
  validEdge t.status new &&
    (if t.status == .decomposed && new == .ready
      then childrenTerminal s t.id else true)

/-- Modelled from the spec: TaskStore.transition(id, newStatus)
(spec section 4.2): fails with InvalidTransition if the target status is
not reachable from the current status per the state machine, otherwise
updates only the status of that task. -/
def transition (s : Store) (id : String) (new : Status) : Except StoreError Store :=
  match s.find? (fun u => u.id == id) with
  | none => Except.error StoreError.unknownTask
  | some t =>
      if transitionOk s t new
        then Except.ok (setStatus s id new)
        else Except.error StoreError.invalidTransition

/-- The ids present in the store. -/
def idsOf (s : Store) : List String :=
  s.map (fun u => u.id)

/-- The dependency ids of the task with the given id. -/
def depsOf (s : Store) (id : String) : List String :=
  match s.find? (fun u => u.id == id) with
  | some t => t.deps
  | none => []

/-- Fuel-bounded reachability through existing dependency edges, starting
from a frontier of task ids. -/
def reachAux (s : Store) : Nat → List String → List String
  | 0, front => front
  | n + 1, front => front ++ reachAux s n (front.flatMap (depsOf s))

/-- Modelled from the spec: the ids reachable from a new task with the
given dependency list through existing dependency edges. -/
def reachableFromDeps (s : Store) (deps : List String) : List String :=
  reachAux s (s.length + 1) deps

/-- Modelled from the spec: TaskStore.create (spec section 4.2): fails
with InvalidDependency if any dependency identifier is unknown or the
reachability check from the new task through existing dependency edges
finds the new task's id (a cycle); otherwise inserts the task. -/
def create (s : Store) (t : CTask) : Except StoreError Store :=
  if t.deps.all (fun d => (idsOf s).contains d)
      && !((reachableFromDeps s t.deps).contains t.id)
    then Except.ok (t :: s)
    else Except.error StoreError.invalidDependency

/-- The store observed after a create call: on failure the caller keeps
the unchanged store. -/
def createApply (s : Store) (t : CTask) : Store :=
  match create s t with
  | Except.ok s2 => s2
  | Except.error _ => s

/-- The ids of the children of a task. -/
def childIds (s : Store) (id : String) : List String :=
  (childrenOf s id).map (fun u => u.id)

/-- Fuel-bounded collection of descendant ids through parent edges. -/
def descAux (s : Store) : Nat → List String → List String
  | 0, _ => []
  | n + 1, front => front ++ descAux s n (front.flatMap (childIds s))

/-- The descendant ids of a task (children, grandchildren, ...). -/
def descSet (s : Store) (id : String) : List String :=
  descAux s (s.length + 1) (childIds s id)

/-- Modelled from the spec: the cancellation cascade (spec section 4.2):
in one operation, the task and every descendant that is not terminal is
marked cancelled; terminal descendants (e.g. already completed) are left
untouched. -/
def cancelCascade (s : Store) (id : String) : Store :=
  s.map (fun u =>
    if (id :: descSet s id).contains u.id && !u.status.isTerminal
      then { u with status := Status.cancelled }
      else u)

/-- Clear the assignment of a task, returning it to the ready pool
(spec section 4.3, reassignment on forced agent deactivation). -/
def clearAssign (s : Store) (id : String) : Store :=
  s.map (fun u =>
    if u.id == id then { u with status := Status.ready, agent := none } else u)

/-- Modelled from the spec: the Scheduler assignment step (spec section
4.3): transition the ready task to running and record the assignment as
one step. -/
def assignAgent (s : Store) (id : String) (a : String) : Store :=
  s.map (fun u =>
    if u.id == id then { u with status := Status.running, agent := some a } else u)

/-- Modelled from the spec: the operations the orchestration core
performs on the task store (spec sections 4.2-4.4 and 6): submission of a
pending task, a state-machine transition that never enters running
directly, scheduler assignment (which is the only step that makes a task
running and which records the agent), reassignment back to ready, and the
cancellation cascade. -/
inductive Step : Store → Store → Prop where
  | submit (s : Store) (t : CTask) :
      t.status = Status.pending → t.agent = none → Step s (t :: s)
  | move (s : Store) (t : CTask) (new : Status) :
      t ∈ s → new ≠ Status.running → validEdge t.status new = true →
      Step s (setStatus s t.id new)
  | assign (s : Store) (t : CTask) (a : String) :
      t ∈ s → t.status = Status.ready → Step s (assignAgent s t.id a)
  | reassign (s : Store) (t : CTask) :
      t ∈ s → Step s (clearAssign s t.id)
  | cancel (s : Store) (id : String) : Step s (cancelCascade s id)

/-- The reachable task stores: those produced from the empty store by a
sequence of core operations. -/
inductive Reach : Store → Prop where
  | init : Reach []
  | step (s s2 : Store) : Reach s → Step s s2 → Reach s2

end Core

namespace Core

/-- A core task with the given id, status and parent; other fields
fixed. -/
def mkTask (id : String) (st : Status) (parent : Option String) : CTask :=
  { id := id, ttype := "research", priority := CPriority.medium, status := st,
    parent := parent, deps := [], agent := none, createdAt := 0 }

/-- A decomposed parent task. -/
def parentDecomposed : CTask := mkTask "p" Status.decomposed none

/-- A running child of the decomposed parent. -/
def childRunning : CTask := mkTask "c" Status.running (some "p")

/-- A pending task with no children. -/
def pendingTask : CTask := mkTask "x" Status.pending none

/-- An existing task for the create witness. -/
def taskA : CTask := mkTask "a" Status.pending none

/-- A task whose dependency list names an unknown id. -/
def badTask : CTask := { mkTask "b" Status.pending none with deps := ["zzz"] }

/-- A root task with two children for the cascade witness. -/
def rootTask : CTask := mkTask "p" Status.pending none

/-- A running child of the root. -/
def childRun : CTask := mkTask "c1" Status.running (some "p")

/-- A completed child of the root. -/
def childDone : CTask := mkTask "c2" Status.completed (some "p")

/-- The store for the cascade witness. -/
def cascadeStore : Store := [rootTask, childRun, childDone]

/-- The submitted task of the C3 witness run. -/
def seedTask : CTask := mkTask "t1" Status.pending none

/-- The seed task after release to ready. -/
def readyTask : CTask := { seedTask with status := Status.ready }

/-- The seed task after scheduler assignment. -/
def runTask : CTask := { seedTask with status := Status.running, agent := some "a1" }

/-- The store after releasing the seed task. -/
def readyStore : Store := setStatus [seedTask] "t1" Status.ready

/-- The store after assigning the seed task to agent a1. -/
def runStore : Store := assignAgent readyStore "t1" "a1"

end Core

/-- C2: the claim asserts that a transition succeeds whenever the target
is reachable along the listed edges; with the spec's guard on
decomposed→ready (all children terminal), a decomposed parent with a
running child cannot move to ready even though decomposed→ready is a
listed edge. -/
theorem c2_counterexample :
    Core.validEdge Core.Status.decomposed Core.Status.ready = true ∧
    Core.transition [Core.parentDecomposed, Core.childRunning] "p" Core.Status.ready
      = Except.error Core.StoreError.invalidTransition := by
  exact ⟨rfl, rfl⟩

/-- C2 (amended): for a task present in the store, the status update
fails with InvalidTransition whenever the target is not reachable along
the listed edges; it also fails when the edge is decomposed→ready and
some child is not terminal; and when the edge is valid and the
decomposed→ready guard holds it succeeds, changing only that task's
status. -/
theorem c2_amended_transition (s : Core.Store) (id : String)
    (new : Core.Status) (t : Core.CTask)
    (hfind : s.find? (fun u => u.id == id) = some t) :
    (Core.validEdge t.status new = false →
      Core.transition s id new = Except.error Core.StoreError.invalidTransition) ∧
    (Core.transitionOk s t new = false →
      Core.transition s id new = Except.error Core.StoreError.invalidTransition) ∧
    (Core.transitionOk s t new = true →
      Core.transition s id new = Except.ok (Core.setStatus s id new)) := by
  refine ⟨?_, ?_, ?_⟩
  · intro h
    simp [Core.transition, hfind, Core.transitionOk, h]
  · intro h
    simp [Core.transition, hfind, h]
  · intro h
    simp [Core.transition, hfind, h]

/-- C2 witness: a pending task moves to ready, changing only its
status. -/
theorem c2_witness :
    ([Core.pendingTask].find? (fun u => u.id == "x") = some Core.pendingTask) ∧
    Core.transitionOk [Core.pendingTask] Core.pendingTask Core.Status.ready = true ∧
    Core.transition [Core.pendingTask] "x" Core.Status.ready
      = Except.ok (Core.setStatus [Core.pendingTask] "x" Core.Status.ready) := by
  refine ⟨rfl, rfl, ?_⟩
  exact (c2_amended_transition [Core.pendingTask] "x" Core.Status.ready
    Core.pendingTask rfl).2.2 rfl

/-- C5: creating a task whose dependency list has an unknown identifier,
or whose id is reachable from its dependencies through existing
dependency edges (a cycle), fails with InvalidDependency, and the stored
task set is unchanged. -/
theorem c5_invalid_dependency (s : Core.Store) (t : Core.CTask)
    (h : (∃ d ∈ t.deps, d ∉ Core.idsOf s) ∨
      t.id ∈ Core.reachableFromDeps s t.deps) :
    Core.create s t = Except.error Core.StoreError.invalidDependency ∧
    Core.createApply s t = s := by
  by_cases hb : (t.deps.all (fun d => (Core.idsOf s).contains d)
      && !((Core.reachableFromDeps s t.deps).contains t.id)) = true
  · exfalso
    rcases Bool.and_eq_true_iff.mp hb with ⟨h1, h2⟩
    rcases h with ⟨d, hd, hnm⟩ | hcyc
    · exact hnm (by simpa using List.all_eq_true.mp h1 d hd)
    · have : t.id ∉ Core.reachableFromDeps s t.deps := by simpa using h2
      exact this hcyc
  · have hbf : (t.deps.all (fun d => (Core.idsOf s).contains d)
        && !((Core.reachableFromDeps s t.deps).contains t.id)) = false := by
      revert hb
      cases t.deps.all (fun d => (Core.idsOf s).contains d)
          && !((Core.reachableFromDeps s t.deps).contains t.id) <;> simp
    constructor
    · unfold Core.create
      exact if_neg hb
    · unfold Core.createApply Core.create
      rw [if_neg hb]

/-- C5 witness: creating a task depending on the unknown id zzz fails and
leaves the store as it was. -/
theorem c5_witness :
    ((∃ d ∈ Core.badTask.deps, d ∉ Core.idsOf [Core.taskA]) ∨
      Core.badTask.id ∈ Core.reachableFromDeps [Core.taskA] Core.badTask.deps) ∧
    Core.create [Core.taskA] Core.badTask
      = Except.error Core.StoreError.invalidDependency ∧
    Core.createApply [Core.taskA] Core.badTask = [Core.taskA] := by
  have h : (∃ d ∈ Core.badTask.deps, d ∉ Core.idsOf [Core.taskA]) ∨
      Core.badTask.id ∈ Core.reachableFromDeps [Core.taskA] Core.badTask.deps := by
    left
    exact ⟨"zzz", by decide, by decide⟩
  have hc := c5_invalid_dependency [Core.taskA] Core.badTask h
  exact ⟨h, hc.1, hc.2⟩

/-- C6: cancelling a task marks, in the one cancelCascade operation,
every descendant whose status is pending, ready, or running cancelled,
while a descendant already completed keeps status completed. -/
theorem c6_cancel_cascade (s : Core.Store) (id : String) (u : Core.CTask)
    (hu : u ∈ s) (hd : u.id ∈ Core.descSet s id) :
    ((u.status = Core.Status.pending ∨ u.status = Core.Status.ready ∨
        u.status = Core.Status.running) →
      { u with status := Core.Status.cancelled } ∈ Core.cancelCascade s id) ∧
    (u.status = Core.Status.completed → u ∈ Core.cancelCascade s id) := by
  constructor
  · intro hst
    have hterm : u.status.isTerminal = false := by
      rcases hst with h | h | h <;> simp [Core.Status.isTerminal, h]
    have hcont : ((id :: Core.descSet s id).contains u.id) = true := by
      simp [hd]
    have hcondtrue : ((id :: Core.descSet s id).contains u.id
        && !u.status.isTerminal) = true := by
      rw [hcont, hterm]
      rfl
    unfold Core.cancelCascade
    exact List.mem_map.mpr ⟨u, hu, by rw [if_pos hcondtrue]⟩
  · intro hst
    have hterm : u.status.isTerminal = true := by
      simp [Core.Status.isTerminal, hst]
    have hcondfalse : ((id :: Core.descSet s id).contains u.id
        && !u.status.isTerminal) = false := by
      rw [hterm]
      simp
    have hne : ¬(((id :: Core.descSet s id).contains u.id
        && !u.status.isTerminal) = true) := by
      rw [hcondfalse]
      exact Bool.false_ne_true
    unfold Core.cancelCascade
    exact List.mem_map.mpr ⟨u, hu, by rw [if_neg hne]⟩

/-- C6 witness: cancelling the root of the concrete store cancels its
running child and leaves its completed child completed. -/
theorem c6_witness :
    Core.childRun ∈ Core.cascadeStore ∧
    Core.childRun.id ∈ Core.descSet Core.cascadeStore "p" ∧
    { Core.childRun with status := Core.Status.cancelled }
      ∈ Core.cancelCascade Core.cascadeStore "p" ∧
    Core.childDone ∈ Core.cascadeStore ∧
    Core.childDone.id ∈ Core.descSet Core.cascadeStore "p" ∧
    Core.childDone ∈ Core.cancelCascade Core.cascadeStore "p" := by
  refine ⟨by decide, by decide, ?_, by decide, by decide, ?_⟩
  · exact (c6_cancel_cascade Core.cascadeStore "p" Core.childRun
      (by decide) (by decide)).1 (Or.inr (Or.inr rfl))
  · exact (c6_cancel_cascade Core.cascadeStore "p" Core.childDone
      (by decide) (by decide)).2 rfl

/-- C3: in every reachable store, a task whose status is running has an
assigned agent: the only operation that makes a task running is the
scheduler assignment, which records exactly one agent in the same
step. -/
theorem c3_running_has_agent (s : Core.Store) (hs : Core.Reach s) :
    ∀ t ∈ s, t.status = Core.Status.running → ∃ a, t.agent = some a := by
  induction hs with
  | init =>
      intro t ht
      exact absurd ht (List.not_mem_nil t)
  | step s1 s2 hr hstep ih =>
      intro t ht hrun
      cases hstep with
      | submit t0 h1 h2 =>
          rcases List.mem_cons.mp ht with rfl | hmem
          · rw [h1] at hrun
            cases hrun
          · exact ih t hmem hrun
      | move t0 new hmem0 hnr hedge =>
          rcases List.mem_map.mp ht with ⟨v, hv, hveq⟩
          by_cases hid : (v.id == t0.id) = true
          · rw [if_pos hid] at hveq
            subst hveq
            exact absurd (by simpa using hrun) hnr
          · rw [if_neg hid] at hveq
            subst hveq
            exact ih v hv hrun
      | assign t0 a hmem0 hst0 =>
          rcases List.mem_map.mp ht with ⟨v, hv, hveq⟩
          by_cases hid : (v.id == t0.id) = true
          · rw [if_pos hid] at hveq
            subst hveq
            exact ⟨a, rfl⟩
          · rw [if_neg hid] at hveq
            subst hveq
            exact ih v hv hrun
      | reassign t0 hmem0 =>
          rcases List.mem_map.mp ht with ⟨v, hv, hveq⟩
          by_cases hid : (v.id == t0.id) = true
          · rw [if_pos hid] at hveq
            subst hveq
            simp at hrun
          · rw [if_neg hid] at hveq
            subst hveq
            exact ih v hv hrun
      | cancel id =>
          rcases List.mem_map.mp ht with ⟨v, hv, hveq⟩
          by_cases hcond : ((id :: Core.descSet s1 id).contains v.id
              && !v.status.isTerminal) = true
          · rw [if_pos hcond] at hveq
            subst hveq
            simp at hrun
          · rw [if_neg hcond] at hveq
            subst hveq
            exact ih v hv hrun

/-- C3 witness: a concrete run submitting a task, releasing it to ready
and assigning agent a1; the resulting running task has an agent. -/
theorem c3_witness :
    Core.runTask ∈ Core.runStore ∧
    Core.runTask.status = Core.Status.running ∧
    ∃ a, Core.runTask.agent = some a := by
  have hr : Core.Reach Core.runStore :=
    Core.Reach.step _ _
      (Core.Reach.step _ _
        (Core.Reach.step _ _ Core.Reach.init
          (Core.Step.submit [] Core.seedTask rfl rfl))
        (Core.Step.move [Core.seedTask] Core.seedTask Core.Status.ready
          (by decide) (by decide) (by decide)))
      (Core.Step.assign Core.readyStore Core.readyTask "a1" (by decide) rfl)
  exact ⟨by decide, rfl,
    c3_running_has_agent Core.runStore hr Core.runTask (by decide) rfl⟩
